import Mathlib

/-!
Verification of the client-side authentication/session subsystem of the
Task-Manager web application (src/lib/api-service.ts: the `ApiService` class
and the auth-context `AuthProvider`).

The embedding models:
* JavaScript runtime values produced by `JSON.parse` (`JsValue`), JS number
  semantics for the comparisons the code performs (`JsNum`, with NaN and the
  infinities; finite values are modelled as exact rationals, so binary
  floating-point rounding of extreme literals is not modelled),
* the `atob` forgiving-base64 decoder, `JSON.parse`, and `JSON.stringify`
  as used by `storeUser`,
* `localStorage` as a pair of optional string entries keyed `token`/`user`,
* `ApiService.makeRequest` and the auth-context operations
  (`login`, `register`, `logout`, `refreshProfile`, `validateAndRefreshAuth`,
  `initializeAuth`, the periodic token-check tick, `setupTokenValidation`),
  with the network modelled as an explicit `FetchOutcome` argument and
  `Date.now()` as an explicit millisecond argument.

Out of model (not used by any property below): React loading flags
(`setIsLoading`), the `window.location` redirect performed by
`ApiService.clearAuthData`, and console logging.
-/

/-- JS numbers as used in the comparisons of the code: NaN, the two
infinities, or a finite value (modelled exactly as a rational). -/
inductive JsNum where
  | nan
  | posInf
  | negInf
  | fin (q : ℚ)
deriving DecidableEq

/-- JS abstract relational comparison `x < y` on numbers: any comparison
with NaN is false; otherwise the usual order with infinities. -/
def JsNum.ltb : JsNum → JsNum → Bool
  | .fin a, .fin b => decide (a < b)
  | .fin _, .posInf => true
  | .negInf, .fin _ => true
  | .negInf, .posInf => true
  | _, _ => false

/-- Exact rational subtraction `a - b`, written via `mkRat` on the
numerators and denominators so that it evaluates by kernel reduction
(`Rat.sub` is irreducible); `qSub_eq` below checks it agrees with `a - b`. -/
def qSub (a b : ℚ) : ℚ :=
  mkRat (a.num * b.den - b.num * a.den) (a.den * b.den)

/-- JS subtraction on numbers (`payload.exp - currentTime`). -/
def JsNum.sub : JsNum → JsNum → JsNum
  | .nan, _ => .nan
  | _, .nan => .nan
  | .posInf, .posInf => .nan
  | .negInf, .negInf => .nan
  | .posInf, _ => .posInf
  | .negInf, _ => .negInf
  | .fin _, .posInf => .negInf
  | .fin _, .negInf => .posInf
  | .fin a, .fin b => .fin (qSub a b)

/-- Values produced by `JSON.parse`. Object fields are kept in parse order;
duplicate keys are resolved last-wins by `jsFind`, matching `JSON.parse`. -/
inductive JsValue where
  | null
  | bool (b : Bool)
  | num (q : ℚ)
  | str (s : String)
  | arr (elems : List JsValue)
  | obj (fields : List (String × JsValue))

/-- Result of a JS property read: either `undefined` or a value. -/
inductive JsProp where
  | undefined
  | val (v : JsValue)

/-- JS truthiness of a `JSON.parse` value (NaN cannot occur in `.num since
the JSON grammar has only finite literals). -/
def jsTruthy : JsValue → Bool
  | .null => false
  | .bool b => b
  | .num q => decide (q ≠ 0)
  | .str s => decide (s ≠ "")
  | .arr _ => true
  | .obj _ => true

def jsTruthyProp : JsProp → Bool
  | .undefined => false
  | .val v => jsTruthy v

/-- Last-wins lookup in an object field list (duplicate keys in a JSON text
resolve to the last occurrence, as in `JSON.parse`). -/
def jsFind (fs : List (String × JsValue)) (k : String) : Option JsValue :=
  match fs with
  | [] => none
  | (k₁, v) :: rest =>
    match jsFind rest k with
    | some r => some r
    | none => if k₁ = k then some v else none

/-- JS property read `v.k`: `none` models a thrown `TypeError` (reading a
property of `null`); reading a missing property or a property of another
primitive yields `undefined`. -/
def jsGetField (v : JsValue) (k : String) : Option JsProp :=
  match v with
  | .null => none
  | .obj fs =>
    some (match jsFind fs k with
          | some x => .val x
          | none => .undefined)
  | _ => some .undefined

/-- ToNumber on a string (`Number(s)` semantics), restricted to the decimal
and Infinity forms; the hex/octal/binary string literal forms are not
modelled (they never occur in this code's data). -/
def jsStrWs (c : Char) : Bool :=
  c = ' ' ∨ c = '\t' ∨ c = '\n' ∨ c = '\x0d' ∨ c = '\x0b' ∨ c = '\x0c'

def dropWsLeft : List Char → List Char
  | [] => []
  | c :: cs => if jsStrWs c then dropWsLeft cs else c :: cs

def digitVal (c : Char) : Option ℕ :=
  if '0' ≤ c ∧ c ≤ '9' then some (c.toNat - 48) else none

/-- Longest digit prefix, returned as (digits read, value, rest). -/
def takeDigits : List Char → ℕ × ℕ × List Char
  | [] => (0, 0, [])
  | c :: cs =>
    match digitVal c with
    | none => (0, 0, c :: cs)
    | some d =>
      let (n, v, rest) := takeDigits cs
      (n + 1, d * 10 ^ n + v, rest)

/-- Exponent suffix `e`/`E` with optional sign; returns (exponent, rest),
or `none` when an exponent marker is present but malformed. -/
def takeExponent : List Char → Option (ℤ × List Char)
  | c :: cs =>
    if c = 'e' ∨ c = 'E' then
      let (eneg, cs₁) :=
        match cs with
        | '-' :: r => (true, r)
        | '+' :: r => (false, r)
        | _ => (false, cs)
      let (ne, ve, rest) := takeDigits cs₁
      if ne = 0 then none
      else some (if eneg then -(ve : ℤ) else (ve : ℤ), rest)
    else some (0, c :: cs)
  | [] => some (0, [])

/-- Exact value of a decimal literal with sign, integer digits `vi`, `nf`
fraction digits of value `vf` and decimal exponent `e`: the rational
`±(vi.nf) * 10 ^ e`. Written with `mkRat` on integers so that it evaluates
by kernel reduction. -/
def ratOfDigits (neg : Bool) (vi nf vf : ℕ) (e : ℤ) : ℚ :=
  let m : ℤ := (vi * 10 ^ nf + vf : ℕ)
  let m : ℤ := if neg then -m else m
  let eAdj : ℤ := e - nf
  if 0 ≤ eAdj then mkRat (m * 10 ^ eAdj.toNat) 1
  else mkRat m (10 ^ (-eAdj).toNat)

def jsStringToNumber (s : String) : JsNum :=
  let cs := dropWsLeft ((dropWsLeft s.toList.reverse).reverse)
  if cs = [] then .fin 0
  else
    let (neg, cs₁) :=
      match cs with
      | '-' :: r => (true, r)
      | '+' :: r => (false, r)
      | _ => (false, cs)
    if cs₁ = ['I', 'n', 'f', 'i', 'n', 'i', 't', 'y'] then
      if neg then .negInf else .posInf
    else
      let (ni, vi, r₁) := takeDigits cs₁
      let (nf, vf, r₂) :=
        match r₁ with
        | '.' :: r => takeDigits r
        | _ => (0, 0, r₁)
      if ni = 0 ∧ nf = 0 then .nan
      else
        match takeExponent r₂ with
        | none => .nan
        | some (e, rest) =>
          if rest = [] then .fin (ratOfDigits neg vi nf vf e)
          else .nan

/-- ToNumber of a property value, as used by the relational operators. For
arrays and plain objects JS goes through ToPrimitive string conversion
("[object Object]" is NaN; array joins are not modelled and mapped to NaN —
no property checked below ever has an array `exp`). -/
def jsToNumber : JsValue → JsNum
  | .null => .fin 0
  | .bool b => .fin (if b then 1 else 0)
  | .num q => .fin q
  | .str s => jsStringToNumber s
  | .arr _ => .nan
  | .obj _ => .nan

def jsToNumberProp : JsProp → JsNum
  | .undefined => .nan
  | .val v => jsToNumber v

/-! ### String search (`String.prototype.includes`) -/

def listPre : List Char → List Char → Bool
  | [], _ => true
  | _ :: _, [] => false
  | a :: as, b :: bs => a = b && listPre as bs

def listIncl (needle : List Char) : List Char → Bool
  | [] => listPre needle []
  | c :: rest => listPre needle (c :: rest) || listIncl needle rest

/-- JS `s.includes(sub)`. -/
def strIncludes (s sub : String) : Bool :=
  listIncl sub.toList s.toList

/-! ### `token.split('.')` -/

def splitDotChars : List Char → List (List Char)
  | [] => [[]]
  | c :: cs =>
    let r := splitDotChars cs
    if c = '.' then [] :: r
    else
      match r with
      | [] => [[c]]
      | h :: t => (c :: h) :: t

/-- JS `token.split('.')`: the (always nonempty) list of dot-separated
segments, with empty segments kept. -/
def splitDot (s : String) : List String :=
  (splitDotChars s.toList).map String.mk

/-! ### `atob`: WHATWG forgiving-base64 decode.

`atob` string-coerces its argument, removes ASCII whitespace, strips up to
two trailing `=` when the length is a multiple of four, rejects a remaining
length of 1 mod 4 and
any character outside the standard alphabet, and decodes sextets to bytes
(ignoring leftover bits), yielding a latin-1 string. -/

def isB64Ws (c : Char) : Bool :=
  c = ' ' ∨ c = '\t' ∨ c = '\n' ∨ c = '\x0c' ∨ c = '\x0d'

def b64Val (c : Char) : Option ℕ :=
  if 'A' ≤ c ∧ c ≤ 'Z' then some (c.toNat - 65)
  else if 'a' ≤ c ∧ c ≤ 'z' then some (c.toNat - 97 + 26)
  else if '0' ≤ c ∧ c ≤ '9' then some (c.toNat - 48 + 52)
  else if c = '+' then some 62
  else if c = '/' then some 63
  else none

def stripB64Pad (cs : List Char) : List Char :=
  match cs.reverse with
  | '=' :: '=' :: r => r.reverse
  | '=' :: r => r.reverse
  | _ => cs

def b64ValsOf : List Char → Option (List ℕ)
  | [] => some []
  | c :: cs =>
    match b64Val c, b64ValsOf cs with
    | some v, some vs => some (v :: vs)
    | _, _ => none

def b64Bytes : List ℕ → Option (List ℕ)
  | [] => some []
  | [_] => none
  | [a, b] => some [a * 4 + b / 16]
  | [a, b, c] => some [a * 4 + b / 16, b % 16 * 16 + c / 4]
  | a :: b :: c :: d :: rest =>
    match b64Bytes rest with
    | some bytes => some ((a * 4 + b / 16) :: (b % 16 * 16 + c / 4) :: (c % 4 * 64 + d) :: bytes)
    | none => none

def atob (s : String) : Option String :=
  let cs := s.toList.filter (fun c => ! isB64Ws c)
  let cs := if cs.length % 4 = 0 then stripB64Pad cs else cs
  if cs.length % 4 = 1 then none
  else
    match b64ValsOf cs with
    | none => none
    | some vals =>
      match b64Bytes vals with
      | none => none
      | some bytes => some (String.mk (bytes.map Char.ofNat))

/-! ### `JSON.parse`

A recursive-descent parser over the character list, following the JSON
grammar (ECMA-404) as `JSON.parse` implements it. Approximations, none of
them reachable from the properties proved below: `\u` escapes denoting
UTF-16 surrogates (including valid surrogate pairs) are rejected rather
than combined, and finite nesting fuel (one unit per opening bracket or
field, bounded by the input length) stands in for the engine stack. -/

def isJWs (c : Char) : Bool :=
  c = ' ' ∨ c = '\t' ∨ c = '\n' ∨ c = '\x0d'

def skipWs : List Char → List Char
  | [] => []
  | c :: cs => if isJWs c then skipWs cs else c :: cs

def hexVal (c : Char) : Option ℕ :=
  if '0' ≤ c ∧ c ≤ '9' then some (c.toNat - 48)
  else if 'a' ≤ c ∧ c ≤ 'f' then some (c.toNat - 97 + 10)
  else if 'A' ≤ c ∧ c ≤ 'F' then some (c.toNat - 65 + 10)
  else none

def simpleEsc (e : Char) : Option Char :=
  if e = '"' then some '"'
  else if e = '\\' then some '\\'
  else if e = '/' then some '/'
  else if e = 'b' then some '\x08'
  else if e = 'f' then some '\x0c'
  else if e = 'n' then some '\n'
  else if e = 'r' then some '\x0d'
  else if e = 't' then some '\t'
  else none

/-- Scan a string body up to the closing quote, keeping escape pairs
intact; returns (raw content, rest after the quote). -/
def splitAtQuote : List Char → Option (List Char × List Char)
  | [] => none
  | c :: cs =>
    if c = '"' then some ([], cs)
    else if c = '\\' then
      match cs with
      | [] => none
      | e :: cs₁ =>
        match splitAtQuote cs₁ with
        | some (a, r) => some (c :: e :: a, r)
        | none => none
    else
      match splitAtQuote cs with
      | some (a, r) => some (c :: a, r)
      | none => none

/-- Resolve the escape sequences of a scanned string body. -/
def unescape : List Char → Option (List Char)
  | [] => some []
  | c :: cs =>
    if c = '\\' then
      match cs with
      | [] => none
      | e :: cs₁ =>
        if e = 'u' then
          match cs₁ with
          | h₁ :: h₂ :: h₃ :: h₄ :: rest =>
            match hexVal h₁, hexVal h₂, hexVal h₃, hexVal h₄ with
            | some a, some b, some x, some d =>
              let code := ((a * 16 + b) * 16 + x) * 16 + d
              if 0xD800 ≤ code ∧ code < 0xE000 then none
              else
                match unescape rest with
                | some out => some (Char.ofNat code :: out)
                | none => none
            | _, _, _, _ => none
          | _ => none
        else
          match simpleEsc e with
          | some ch =>
            match unescape cs₁ with
            | some out => some (ch :: out)
            | none => none
          | none => none
    else if c.toNat < 0x20 then none
    else
      match unescape cs with
      | some out => some (c :: out)
      | none => none

/-- Parse a JSON string given the characters after the opening quote;
returns (content, rest after the closing quote). -/
def parseJString (cs : List Char) : Option (List Char × List Char) :=
  match splitAtQuote cs with
  | some (raw, rest) =>
    match unescape raw with
    | some content => some (content, rest)
    | none => none
  | none => none

/-- Parse a JSON number literal (int / frac / exp per the JSON grammar). -/
def parseJNumber (cs : List Char) : Option (ℚ × List Char) :=
  let (neg, cs₁) :=
    match cs with
    | '-' :: r => (true, r)
    | _ => (false, cs)
  match cs₁ with
  | '0' :: r₁ => parseJNumTail neg 0 r₁
  | c :: _ =>
    match digitVal c with
    | some d =>
      if d = 0 then none
      else
        let (_, vi, r₁) := takeDigits cs₁
        parseJNumTail neg vi r₁
    | none => none
  | [] => none
where
  parseJNumTail (neg : Bool) (vi : ℕ) (r₁ : List Char) : Option (ℚ × List Char) :=
    let fracPart : Option (ℕ × ℕ × List Char) :=
      match r₁ with
      | '.' :: r =>
        let (nf, vf, rest) := takeDigits r
        if nf = 0 then none else some (nf, vf, rest)
      | _ => some (0, 0, r₁)
    match fracPart with
    | none => none
    | some (nf, vf, r₂) =>
      match takeExponent r₂ with
      | none => none
      | some (e, rest) => some (ratOfDigits neg vi nf vf e, rest)

mutual

def parseVal : ℕ → List Char → Option (JsValue × List Char)
  | 0, _ => none
  | fuel + 1, cs =>
    match skipWs cs with
    | 'n' :: 'u' :: 'l' :: 'l' :: rest => some (.null, rest)
    | 't' :: 'r' :: 'u' :: 'e' :: rest => some (.bool true, rest)
    | 'f' :: 'a' :: 'l' :: 's' :: 'e' :: rest => some (.bool false, rest)
    | '"' :: rest =>
      match parseJString rest with
      | some (content, r) => some (.str (String.mk content), r)
      | none => none
    | '[' :: rest => parseElems fuel (skipWs rest)
    | '\x7b' :: rest => parseFields fuel (skipWs rest)
    | other =>
      match parseJNumber other with
      | some (q, r) => some (.num q, r)
      | none => none

/-- Elements of an array, after `[` and whitespace: empty or a
comma-separated element list (no trailing comma). -/
def parseElems : ℕ → List Char → Option (JsValue × List Char)
  | 0, _ => none
  | fuel + 1, cs =>
    match cs with
    | ']' :: rest => some (.arr [], rest)
    | _ => parseItems fuel cs

/-- One or more comma-separated array elements followed by `]`. -/
def parseItems : ℕ → List Char → Option (JsValue × List Char)
  | 0, _ => none
  | fuel + 1, cs =>
    match parseVal fuel cs with
    | some (v, r) =>
      match skipWs r with
      | ',' :: r₁ =>
        match parseItems fuel (skipWs r₁) with
        | some (.arr vs, rr) => some (.arr (v :: vs), rr)
        | _ => none
      | ']' :: r₁ => some (.arr [v], r₁)
      | _ => none
    | none => none

/-- Members of an object, after `\x7b` and whitespace: empty or a
comma-separated member list (no trailing comma). -/
def parseFields : ℕ → List Char → Option (JsValue × List Char)
  | 0, _ => none
  | fuel + 1, cs =>
    match cs with
    | '\x7d' :: rest => some (.obj [], rest)
    | _ => parseMembers fuel cs

/-- One or more `"key" : value` members followed by `\x7d`. -/
def parseMembers : ℕ → List Char → Option (JsValue × List Char)
  | 0, _ => none
  | fuel + 1, cs =>
    match cs with
    | '"' :: cs₁ =>
      match parseJString cs₁ with
      | some (key, r) =>
        match skipWs r with
        | ':' :: r₁ =>
          match parseVal fuel r₁ with
          | some (v, r₂) =>
            match skipWs r₂ with
            | ',' :: r₃ =>
              match parseMembers fuel (skipWs r₃) with
              | some (.obj fs, rr) => some (.obj ((String.mk key, v) :: fs), rr)
              | _ => none
            | '\x7d' :: r₃ => some (.obj [(String.mk key, v)], r₃)
            | _ => none
          | none => none
        | _ => none
      | none => none
    | _ => none

end

def jsonParse (s : String) : Option JsValue :=
  match parseVal (2 * s.toList.length + 2) s.toList with
  | some (v, rest) => if skipWs rest = [] then some v else none
  | none => none

/-! ### `JSON.stringify` as used by `storeUser`

`storeUser` serializes the `userData` object literal
`\x7b _id, name, email, createdAt, updatedAt \x7d`; `JSON.stringify` keeps the
literal's key order and omits keys whose value is `undefined`. The record
fields extracted from API responses are modelled as optional strings
(`none` = the property was absent/`undefined`; non-string property values
are not modelled — every claim below concerns string-valued fields). -/

def hexDigitChar (n : ℕ) : Char :=
  if n < 10 then Char.ofNat (48 + n) else Char.ofNat (87 + n)

/-- `JSON.stringify` escaping for one character of a string value. -/
def escChar (c : Char) : List Char :=
  if c = '"' then ['\\', '"']
  else if c = '\\' then ['\\', '\\']
  else if c = '\x08' then ['\\', 'b']
  else if c = '\t' then ['\\', 't']
  else if c = '\n' then ['\\', 'n']
  else if c = '\x0c' then ['\\', 'f']
  else if c = '\x0d' then ['\\', 'r']
  else if c.toNat < 0x20 then
    ['\\', 'u', '0', '0', hexDigitChar (c.toNat / 16), hexDigitChar (c.toNat % 16)]
  else [c]

def escList : List Char → List Char
  | [] => []
  | c :: cs => escChar c ++ escList cs

/-- A double-quoted, escaped JSON string literal. -/
def quoteChars (s : String) : List Char :=
  '"' :: (escList s.toList ++ ['"'])

/-- The `User` record of the frontend (`src/lib/types.ts`), as stored and
re-read by the auth context. -/
structure User where
  _id : Option String
  name : Option String
  email : Option String
  createdAt : Option String
  updatedAt : Option String

def optField (k : String) (v : Option String) : List (String × String) :=
  match v with
  | some s => [(k, s)]
  | none => []

/-- The present fields of the user object literal, in its key order. -/
def userFields (u : User) : List (String × String) :=
  optField "_id" u._id ++ optField "name" u.name ++ optField "email" u.email ++
    optField "createdAt" u.createdAt ++ optField "updatedAt" u.updatedAt

def fieldChars (f : String × String) : List Char :=
  quoteChars f.1 ++ ':' :: quoteChars f.2

def fieldsChars : List (String × String) → List Char
  | [] => []
  | [f] => fieldChars f
  | f :: g :: fs => fieldChars f ++ ',' :: fieldsChars (g :: fs)

def objChars (fs : List (String × String)) : List Char :=
  '\x7b' :: (fieldsChars fs ++ ['\x7d'])

/-- `JSON.stringify(userData)`. -/
def stringifyUser (u : User) : String :=
  String.mk (objChars (userFields u))

/-- The `JsValue` that `JSON.parse` yields back for a stored user record. -/
def userToJs (u : User) : JsValue :=
  .obj ((userFields u).map (fun f => (f.1, .str f.2)))

/-! ### The Token Validator

`isTokenExpired` appears twice with an identical body: as
`ApiService.isTokenExpired` (api-service, lines 37-46) and in the auth
context (lines 507-516):

  const payload = JSON.parse(atob(token.split('.')[1]));
  const currentTime = Date.now() / 1000;
  return payload.exp < currentTime;   // catch: return true

`token.split('.')[1]` is `undefined` when the token has no dot; `atob`
string-coerces that to "undefined", which fails to decode (length 9 ≡ 1
mod 4), so the defaulting below is exact. `Date.now()` is passed in as
`nowMs` milliseconds. -/

def tokenPayload (token : String) : Option JsValue :=
  match atob ((splitDot token).getD 1 "undefined") with
  | none => none
  | some decoded => jsonParse decoded

/-- `Date.now() / 1000`, the current wall-clock time in (fractional)
seconds; written with `mkRat` (the same rational as `(nowMs : ℚ) / 1000`)
so that it evaluates by kernel reduction. -/
def currentTimeOf (nowMs : ℕ) : ℚ := mkRat nowMs 1000

def isTokenExpired (nowMs : ℕ) (token : String) : Bool :=
  match tokenPayload token with
  | none => true
  | some payload =>
    match jsGetField payload "exp" with
    | none => true
    | some e => JsNum.ltb (jsToNumberProp e) (.fin (currentTimeOf nowMs))

/-! ### The Token Store

`localStorage`, restricted to the two entries this subsystem uses. -/

structure Storage where
  token : Option String
  user : Option String
deriving DecidableEq

/-- `ApiService.clearAuthData` (lines 48-57): removes both entries. The
`window.location` redirect it may also perform is outside the model. -/
def clearAuthData (_s : Storage) : Storage :=
  ⟨none, none⟩

/-- Auth-context `clearStoredData` (lines 547-552). -/
def clearStoredData (_s : Storage) : Storage :=
  ⟨none, none⟩

/-- JS truthiness of `localStorage.getItem(...)` (null or "" are falsy). -/
def tokenTruthy : Option String → Bool
  | some t => decide (t ≠ "")
  | none => false

/-! ### The API client: `ApiService.makeRequest` (lines 59-129)

The network is an explicit argument: either the fetch/`response.json()`
chain rejects (`netError`, carrying the thrown `Error`'s message), or a
response arrives with a status and a JSON body. -/

inductive FetchOutcome where
  | netError (msg : String)
  | reply (status : ℕ) (body : JsValue)

structure ApiResponse where
  success : Bool
  data : Option JsValue
  error : Option String

/-- Result of one `makeRequest` call: the returned `ApiResponse`, the
storage afterwards, and — when the fetch was actually performed — the
`Authorization` header it carried (`sent = none` means the request was
short-circuited before any fetch). -/
structure ReqResult where
  resp : ApiResponse
  storage : Storage
  sent : Option (Option String)

def API_BASE_URL : String :=
  "https://task-manager-backend-gamma-silk.vercel.app/api"

def loginUrl : String := API_BASE_URL ++ "/auth/login"
def registerUrl : String := API_BASE_URL ++ "/auth/register"
def logoutUrl : String := API_BASE_URL ++ "/auth/logout"
def profileUrl : String := API_BASE_URL ++ "/auth/profile"

def sessionExpiredMsg : String := "Session expired. Please login again."

def httpErrorMsg (status : ℕ) : String :=
  "HTTP error! status: " ++ toString status

/-- Placeholder for the engine-specific `TypeError` text produced by reading
`.message` of a `null` body (no claim depends on its contents, only on it
not being the session-expired message). -/
def nullMessageError : String := "Cannot read properties of null"

/-- Placeholder for `String(value)` of a truthy non-string `message`
property (again, unreachable from every property below). -/
def nonStringMessage : String := "non-string message"

/-- `data.message || httpError`: `none` models the `TypeError` thrown when
the body is `null`. -/
def errMessageOf (body : JsValue) (status : ℕ) : Option String :=
  match jsGetField body "message" with
  | none => none
  | some p =>
    some (match p with
          | .val (.str m) => if m = "" then httpErrorMsg status else m
          | x => if jsTruthyProp x then nonStringMessage else httpErrorMsg status)

/-- `url.includes('/auth/login') || url.includes('/auth/register')`. -/
def isAuthUrl (url : String) : Bool :=
  strIncludes url "/auth/login" || strIncludes url "/auth/register"

/-- The fetch/response handling of `makeRequest` after the pre-flight
check: the returned `ApiResponse` and the storage afterwards. -/
def handleFetch (isAuthRequest : Bool) (st : Storage) (fetch : FetchOutcome) :
    ApiResponse × Storage :=
  match fetch with
  | .netError msg =>
    -- catch: `error.message.includes('401') && !isAuthRequest`
    if strIncludes msg "401" ∧ ¬ isAuthRequest = true then
      (⟨false, none, some sessionExpiredMsg⟩, clearAuthData st)
    else (⟨false, none, some msg⟩, st)
  | .reply status body =>
    if 200 ≤ status ∧ status ≤ 299 then (⟨true, some body, none⟩, st)
    else if status = 401 ∧ ¬ isAuthRequest = true then
      (⟨false, none, some sessionExpiredMsg⟩, clearAuthData st)
    else
      -- `throw new Error(data.message || ...)`, landing in the same catch
      match errMessageOf body status with
      | none => (⟨false, none, some nullMessageError⟩, st)
      | some m =>
        if strIncludes m "401" ∧ ¬ isAuthRequest = true then
          (⟨false, none, some sessionExpiredMsg⟩, clearAuthData st)
        else (⟨false, none, some m⟩, st)

def makeRequest (nowMs : ℕ) (url : String) (st : Storage) (fetch : FetchOutcome) : ReqResult :=
  -- pre-flight check: `if (token && !isAuthRequest && this.isTokenExpired(token))`
  if tokenTruthy st.token ∧ ¬ (isAuthUrl url) = true ∧ isTokenExpired nowMs (st.token.getD "") then
    ⟨⟨false, none, some sessionExpiredMsg⟩, clearAuthData st, none⟩
  else
    -- `if (token && !isAuthRequest) defaultHeaders.Authorization = ...`
    let authHeader : Option String :=
      if tokenTruthy st.token ∧ ¬ (isAuthUrl url) = true then
        some ("Bearer " ++ st.token.getD "")
      else none
    let rb := handleFetch (isAuthUrl url) st fetch
    ⟨rb.1, rb.2, some authHeader⟩

/-! ### The Session Manager (auth-context `AuthProvider`, lines 449-876)

State: the two storage entries, the in-memory React `user` state (kept as
the raw JS value `setUser` receives), and the token-check interval (its
period when installed). `Date.now()` is the explicit `nowMs` argument of
each operation; network outcomes are explicit `FetchOutcome` arguments.
The `isLoading` flag and console logging are outside the model. -/

structure AuthState where
  storage : Storage
  user : Option JsValue
  intervalMs : Option ℕ

/-- Auth-context `getStoredUser` (lines 519-536). Note that the
`console.log` reads `parsed.name`, which throws on a parsed `null` and so
also lands in the catch (which removes the corrupted entry). -/
def getStoredUser (s : Storage) : Option JsValue × Storage :=
  match s.user with
  | none => (none, s)
  | some raw =>
    if raw = "" then (none, s)
    else
      match jsonParse raw with
      | some v =>
        match jsGetField v "name" with
        | none => (none, ⟨s.token, none⟩)
        | some _ => (some v, s)
      | none => (none, ⟨s.token, none⟩)

/-- Auth-context `storeUser` (lines 539-544). -/
def storeUser (s : Storage) (u : User) : Storage :=
  ⟨s.token, some (stringifyUser u)⟩

/-- Property read of a string field when building a `userData` record
(`response.data.user._id` and friends). A non-string property value is
treated as absent; see the `JSON.stringify` note above. -/
def getUserField (uv : JsValue) (k : String) : Option String :=
  match jsGetField uv k with
  | some (.val (.str s)) => some s
  | _ => none

def userOfJs (uv : JsValue) : User :=
  ⟨getUserField uv "_id", getUserField uv "name", getUserField uv "email",
   getUserField uv "createdAt", getUserField uv "updatedAt"⟩

/-- `if (response.success && response.data)`. -/
def respDataTruthy (r : ApiResponse) : Option JsValue :=
  if r.success then
    match r.data with
    | some d => if jsTruthy d then some d else none
    | none => none
  else none

/-- Building `{ token, user: {...} }` from `response.data` in `login` /
`register`. `none` models the `TypeError` thrown when `data.user` is
`undefined` or `null` (subfield reads throw), which the surrounding catch
turns into the network-error message. A non-string `token` (which
`localStorage.setItem` would coerce) is not modelled and also mapped to
the thrown branch — no claim involves one. -/
def extractAuthData (d : JsValue) : Option (String × User) :=
  match jsGetField d "token" with
  | some (.val (.str t)) =>
    match jsGetField d "user" with
    | some (.val uv) =>
      match uv with
      | .null => none
      | _ => some (t, userOfJs uv)
    | _ => none
  | _ => none

def intervalPeriodMs : ℕ := 5 * 60 * 1000

def setupTokenValidation (st : AuthState) : AuthState :=
  ⟨st.storage, st.user, some intervalPeriodMs⟩

def genericCredsMsg : String :=
  "Invalid email or password. Please check your credentials and try again."

def networkErrMsg : String := "Network error. Please check your connection."

/-- `response.error || fallback` (an absent or empty error string falls
back). -/
def errorTextOr (fallback : String) (r : ApiResponse) : String :=
  match r.error with
  | some e => if e = "" then fallback else e
  | none => fallback

structure LoginResult where
  state : AuthState
  success : Bool
  error : Option String

/-- Auth-context `login` (lines 748-787). The credentials only form the
request body, which the explicit fetch outcome abstracts. -/
def login (nowMs : ℕ) (st : AuthState) (fetch : FetchOutcome) : LoginResult :=
  let r := makeRequest nowMs loginUrl st.storage fetch
  match respDataTruthy r.resp with
  | some d =>
    match extractAuthData d with
    | some (t, u) =>
      let storage₁ : Storage := ⟨some t, r.storage.user⟩
      let storage₂ := storeUser storage₁ u
      ⟨⟨storage₂, some (userToJs u), some intervalPeriodMs⟩, true, none⟩
    | none => ⟨⟨r.storage, st.user, st.intervalMs⟩, false, some networkErrMsg⟩
  | none =>
    let errorMessage := errorTextOr "Login failed" r.resp
    let masked := strIncludes errorMessage "Invalid credentials" ||
      strIncludes errorMessage "incorrect password" ||
      strIncludes errorMessage "user not found"
    ⟨⟨r.storage, st.user, st.intervalMs⟩, false,
      some (if masked then genericCredsMsg else errorMessage)⟩

/-- Auth-context `register` (lines 789-823); identical to `login` except
for the endpoint, the fallback text and the absence of masking. -/
def register (nowMs : ℕ) (st : AuthState) (fetch : FetchOutcome) : LoginResult :=
  let r := makeRequest nowMs registerUrl st.storage fetch
  match respDataTruthy r.resp with
  | some d =>
    match extractAuthData d with
    | some (t, u) =>
      let storage₁ : Storage := ⟨some t, r.storage.user⟩
      let storage₂ := storeUser storage₁ u
      ⟨⟨storage₂, some (userToJs u), some intervalPeriodMs⟩, true, none⟩
    | none => ⟨⟨r.storage, st.user, st.intervalMs⟩, false, some networkErrMsg⟩
  | none =>
    ⟨⟨r.storage, st.user, st.intervalMs⟩, false, some (errorTextOr "Registration failed" r.resp)⟩

structure LogoutResult where
  state : AuthState
  calledBackend : Bool

/-- Auth-context `logout` (lines 825-843): best-effort backend call only
for a present, non-expired token; the finally-block unconditionally clears
storage, the user and the interval. `apiService.logout()` never throws (all
failures are returned values), so the catch is inert. -/
def logout (nowMs : ℕ) (st : AuthState) (fetch : FetchOutcome) : LogoutResult :=
  let called : Bool :=
    tokenTruthy st.storage.token && ! isTokenExpired nowMs (st.storage.token.getD "")
  let storage₁ : Storage :=
    if called then (makeRequest nowMs logoutUrl st.storage fetch).storage else st.storage
  ⟨⟨clearStoredData storage₁, none, none⟩, called⟩

structure RefreshResult where
  state : AuthState
  calledProfile : Bool

/-- Auth-context `refreshProfile` (lines 619-664). `calledProfile` records
whether `apiService.getProfile()` was invoked. -/
def refreshProfile (nowMs : ℕ) (st : AuthState) (fetch : FetchOutcome) : RefreshResult :=
  if tokenTruthy st.storage.token = false then
    ⟨⟨clearStoredData st.storage, none, st.intervalMs⟩, false⟩
  else if isTokenExpired nowMs (st.storage.token.getD "") then
    ⟨⟨clearStoredData st.storage, none, st.intervalMs⟩, false⟩
  else
    let r := makeRequest nowMs profileUrl st.storage fetch
    match respDataTruthy r.resp with
    | some d =>
      let u := userOfJs d
      ⟨⟨storeUser r.storage u, some (userToJs u), st.intervalMs⟩, true⟩
    | none => ⟨⟨clearStoredData r.storage, none, st.intervalMs⟩, true⟩

inductive TickAction where
  | noop
  | loggedOut
  | refreshed
deriving DecidableEq

/-- One firing of the `setInterval` callback installed by
`setupTokenValidation` (lines 667-702). -/
def intervalTick (nowMs : ℕ) (st : AuthState) (logoutFetch profileFetch : FetchOutcome) :
    AuthState × TickAction :=
  if tokenTruthy st.storage.token = false then (st, .noop)
  else
    let t := st.storage.token.getD ""
    if isTokenExpired nowMs t then ((logout nowMs st logoutFetch).state, .loggedOut)
    else
      match tokenPayload t with
      | none => (st, .noop)
      | some payload =>
        match jsGetField payload "exp" with
        | none => (st, .noop)
        | some e =>
          let timeUntilExpiry := JsNum.sub (jsToNumberProp e) (.fin (currentTimeOf nowMs))
          if JsNum.ltb timeUntilExpiry (.fin 600) then
            ((refreshProfile nowMs st profileFetch).state, .refreshed)
          else (st, .noop)

/-- `user && user._id && user.name && user.email`. -/
def userLooksValid (v : JsValue) : Bool :=
  jsTruthy v &&
    (match jsGetField v "_id" with
     | some p => jsTruthyProp p
     | none => false) &&
    (match jsGetField v "name" with
     | some p => jsTruthyProp p
     | none => false) &&
    (match jsGetField v "email" with
     | some p => jsTruthyProp p
     | none => false)

/-- The no-token path of `validateAndRefreshAuth` (lines 558-566). -/
def varaNoToken (st : AuthState) : AuthState × Bool :=
  let res := getStoredUser st.storage
  let storage₂ :=
    match res.1 with
    | some sv => if jsTruthy sv then clearStoredData res.2 else res.2
    | none => res.2
  (⟨storage₂, none, st.intervalMs⟩, false)

/-- The fetch-from-server tail of `validateAndRefreshAuth` (lines 590-616). -/
def varaServer (nowMs : ℕ) (st : AuthState) (fetch : FetchOutcome) : AuthState × Bool :=
  let r := makeRequest nowMs profileUrl st.storage fetch
  match respDataTruthy r.resp with
  | some d =>
    let u := userOfJs d
    (⟨storeUser r.storage u, some (userToJs u), st.intervalMs⟩, true)
  | none => (⟨clearStoredData r.storage, none, st.intervalMs⟩, false)

/-- Auth-context `validateAndRefreshAuth` (lines 555-617). -/
def validateAndRefreshAuth (nowMs : ℕ) (st : AuthState) (fetch : FetchOutcome) :
    AuthState × Bool :=
  if tokenTruthy st.storage.token = false then varaNoToken st
  else if isTokenExpired nowMs (st.storage.token.getD "") then
    (⟨clearStoredData st.storage, none, st.intervalMs⟩, false)
  else if (match st.user with
           | some u => userLooksValid u
           | none => false) then (st, true)
  else
    let res := getStoredUser st.storage
    match res.1 with
    | some sv =>
      if userLooksValid sv then (⟨res.2, some sv, st.intervalMs⟩, true)
      else varaServer nowMs ⟨res.2, st.user, st.intervalMs⟩ fetch
    | none => varaServer nowMs ⟨res.2, st.user, st.intervalMs⟩ fetch

/-- The `initializeAuth` effect run on mount (lines 704-746). The
`finally` block runs `setupTokenValidation()` on every path — including
after the early `return`. -/
def initializeAuth (nowMs : ℕ) (st : AuthState) (fetch : FetchOutcome) : AuthState :=
  let st₁ :=
    match st.user with
    | some _ =>
      if tokenTruthy st.storage.token ∧
          isTokenExpired nowMs (st.storage.token.getD "") = false then st
      else (validateAndRefreshAuth nowMs ⟨clearStoredData st.storage, none, st.intervalMs⟩ fetch).1
    | none => (validateAndRefreshAuth nowMs st fetch).1
  setupTokenValidation st₁

/-- The `useState` initializer hydrating the user from storage
(lines 451-477). The success branch logs `parsed.name`, which throws on a
parsed `null` and lands in the outer catch (yielding `null`). -/
def hydrateUser (nowMs : ℕ) (s : Storage) : Option JsValue :=
  match s.user, s.token with
  | some su, some t =>
    if su ≠ "" ∧ t ≠ "" then
      match jsonParse su with
      | none => none
      | some parsed =>
        match tokenPayload t with
        | none => none
        | some payload =>
          match jsGetField payload "exp" with
          | none => none
          | some e =>
            if JsNum.ltb (.fin (currentTimeOf nowMs)) (jsToNumberProp e) then
              match jsGetField parsed "name" with
              | none => none
              | some _ => some parsed
            else none
    else none
  | _, _ => none

/-- Provider construction on mount, before `initializeAuth` runs. -/
def initialAuthState (nowMs : ℕ) (s : Storage) : AuthState :=
  ⟨s, hydrateUser nowMs s, none⟩

/-- `isAuthenticated = !!user`. -/
def isAuthenticatedB (st : AuthState) : Bool :=
  match st.user with
  | some v => jsTruthy v
  | none => false

def emptyStorage : Storage := ⟨none, none⟩

def emptyAuthState : AuthState := ⟨emptyStorage, none, none⟩

/-! ### Concrete inputs used by witnesses and counterexamples -/

/-- A well-formed JWT-shaped token whose payload is `"exp":1` (the middle
segment is base64 of that object). -/
def tokExp1 : String := "a.eyJleHAiOjF9.c"

/-- Three dot-separated segments, but the middle decodes to an object with
no `exp` field (base64 of the two brace characters). -/
def tokNoExp : String := "a.e30.c"

/-- Only two dot-separated segments; the segment at index 1 decodes to an
object with a far-future `exp` of 9999. -/
def tokTwoSeg : String := "a.eyJleHAiOjk5OTl9"

def tokExp1Payload : JsValue := (tokenPayload tokExp1).getD .null

def tokExp1Exp : ℚ :=
  match jsGetField tokExp1Payload "exp" with
  | some (.val (.num q)) => q
  | _ => 0

/-- State with a token that is expired at `nowMs = 2000`. -/
def stTick : AuthState := ⟨⟨some tokExp1, some "u"⟩, some (.str "x"), some intervalPeriodMs⟩

/-! ## Properties -/

/-- Claim C1 — counterexample. The claim asserts that every malformed token
(not three dot-separated segments, or middle segment not decoding to a JSON
object with an `exp` field) is reported expired. Both disjuncts fail:
`tokNoExp` has three segments but its middle decodes to an object with no
`exp` field (`payload.exp` is `undefined` and `undefined < now` is false),
and `tokTwoSeg` has only two segments yet is judged by its decoded
`exp`; for both, `isTokenExpired` returns false. -/
theorem claim_C1_counterexample :
    ((splitDot tokNoExp).length = 3 ∧ tokenPayload tokNoExp = some (.obj []) ∧
      isTokenExpired 0 tokNoExp = false) ∧
    ((splitDot tokTwoSeg).length = 2 ∧ isTokenExpired 0 tokTwoSeg = false) :=
  ⟨⟨rfl, rfl, rfl⟩, rfl, rfl⟩

/-- Claim C1 (amended): `isTokenExpired` returns true exactly when the
decode chain `JSON.parse(atob(token.split('.')[1])).exp` throws: the
segment at index 1 is missing (there is no dot, so `atob` receives the
coerced string "undefined"), or fails forgiving-base64 decoding, or its
bytes fail to parse as JSON, or parse to JSON `null` (whose property read
throws). A structurally non-JWT token whose index-1 segment decodes, or a
decoded object lacking `exp`, is instead judged by the `exp` comparison. -/
theorem claim_C1_amended (nowMs : ℕ) (t : String)
    (h : (splitDot t).length < 2 ∨
         atob ((splitDot t).getD 1 "undefined") = none ∨
         (∃ d, atob ((splitDot t).getD 1 "undefined") = some d ∧ jsonParse d = none) ∨
         tokenPayload t = some .null) :
    isTokenExpired nowMs t = true := by
  rcases h with h | h | ⟨d, hd, hj⟩ | h
  · have hseg : (splitDot t).getD 1 "undefined" = "undefined" :=
      List.getD_eq_default _ _ (by omega)
    simp only [isTokenExpired, tokenPayload, hseg]
    rfl
  · simp only [isTokenExpired, tokenPayload, h]
  · simp only [isTokenExpired, tokenPayload, hd, hj]
  · simp only [isTokenExpired, h, jsGetField]

/-- Claim C1 — witness for the amended theorem at a dot-free token. -/
theorem claim_C1_witness :
    (splitDot "abc").length < 2 ∧ isTokenExpired 0 "abc" = true :=
  ⟨by decide, claim_C1_amended 0 "abc" (Or.inl (by decide))⟩

/-- Claim C9: for a token whose payload decodes to an object with a numeric
`exp`, expiry is the strict comparison `exp < Date.now()/1000`: a strictly
past `exp` is expired and an `exp` exactly equal to the current time is not
(no tolerance window). -/
theorem claim_C9 (nowMs : ℕ) (t : String) (p : JsValue) (q : ℚ)
    (hp : tokenPayload t = some p)
    (he : jsGetField p "exp" = some (.val (.num q))) :
    (q < currentTimeOf nowMs → isTokenExpired nowMs t = true) ∧
    (q = currentTimeOf nowMs → isTokenExpired nowMs t = false) := by
  constructor <;> intro hq <;>
    simp [isTokenExpired, hp, he, jsToNumberProp, jsToNumber, JsNum.ltb, hq]

/-- Claim C9 — witness: the concrete token with `exp` 1 is expired at
`Date.now()` = 2000ms and not expired at exactly 1000ms. -/
theorem claim_C9_witness :
    isTokenExpired 2000 tokExp1 = true ∧ isTokenExpired 1000 tokExp1 = false :=
  ⟨(claim_C9 2000 tokExp1 tokExp1Payload tokExp1Exp rfl rfl).1 (by decide),
   (claim_C9 1000 tokExp1 tokExp1Payload tokExp1Exp rfl rfl).2 (by decide)⟩

/-- Claim C5: `logout` always ends with the in-memory user null and both
storage entries removed — whatever the backend call did — and it performs
the backend call exactly when a present, truthy, non-expired token exists. -/
theorem claim_C5 (nowMs : ℕ) (st : AuthState) (fetch : FetchOutcome) :
    (logout nowMs st fetch).state.user = none ∧
    (logout nowMs st fetch).state.storage = emptyStorage ∧
    ((logout nowMs st fetch).calledBackend = true ↔
      ∃ t, st.storage.token = some t ∧ t ≠ "" ∧ isTokenExpired nowMs t = false) := by
  refine ⟨rfl, rfl, ?_⟩
  unfold logout
  cases h : st.storage.token with
  | none => simp [tokenTruthy]
  | some t =>
    simp [tokenTruthy, Bool.and_eq_true, decide_eq_true_eq, Bool.not_eq_true']

/-- Claim C8: `logout` is idempotent — a second call reproduces the same
end state (cleared storage, null user, no interval) and skips the backend
since no token remains. -/
theorem claim_C8 (n₁ n₂ : ℕ) (st : AuthState) (f₁ f₂ : FetchOutcome) :
    (logout n₂ (logout n₁ st f₁).state f₂).state = (logout n₁ st f₁).state ∧
    (logout n₂ (logout n₁ st f₁).state f₂).calledBackend = false :=
  ⟨rfl, rfl⟩

/-- Sanity check: `qSub` is ordinary rational subtraction. -/
theorem qSub_eq (a b : ℚ) : qSub a b = a - b :=
  (Rat.sub_def' a b).symm

/-- Sanity check: `currentTimeOf` is `Date.now() / 1000`. -/
theorem currentTimeOf_eq (nowMs : ℕ) : currentTimeOf nowMs = (nowMs : ℚ) / 1000 := by
  rw [currentTimeOf, Rat.mkRat_eq_div]
  norm_num

/-- The two `mkRat` branches compute `m * 10 ^ e` for a signed exponent. -/
theorem ratPow_aux (m e : ℤ) :
    (if 0 ≤ e then mkRat (m * 10 ^ e.toNat) 1 else mkRat m (10 ^ (-e).toNat))
      = (m : ℚ) * (10 : ℚ) ^ e := by
  rcases le_or_lt 0 e with hle | hlt
  · rw [if_pos hle, Rat.mkRat_eq_div]
    push_cast
    rw [div_one, ← zpow_natCast (10 : ℚ), Int.toNat_of_nonneg hle]
  · rw [if_neg (not_le.mpr hlt), Rat.mkRat_eq_div]
    push_cast
    rw [div_eq_mul_inv, ← zpow_natCast (10 : ℚ), ← zpow_neg,
      Int.toNat_of_nonneg (by omega : (0:ℤ) ≤ -e), neg_neg]

/-- Sanity check: `ratOfDigits` is the value `±(intpart.fracpart) · 10 ^ e`
of a decimal literal. -/
theorem ratOfDigits_eq (neg : Bool) (vi nf vf : ℕ) (e : ℤ) :
    ratOfDigits neg vi nf vf e =
      (if neg then -((vi * 10 ^ nf + vf : ℕ) : ℚ) else ((vi * 10 ^ nf + vf : ℕ) : ℚ)) *
        (10 : ℚ) ^ (e - (nf : ℤ)) := by
  simp only [ratOfDigits]
  rw [ratPow_aux]
  cases neg <;> push_cast <;> ring

/-- Claim C4: `refreshProfile` with an absent or expired stored token
clears both storage entries, nulls the in-memory user, and never invokes
the profile endpoint. -/
theorem claim_C4 (nowMs : ℕ) (st : AuthState) (fetch : FetchOutcome)
    (h : st.storage.token = none ∨
         ∃ t, st.storage.token = some t ∧ isTokenExpired nowMs t = true) :
    (refreshProfile nowMs st fetch).state.user = none ∧
    (refreshProfile nowMs st fetch).state.storage = emptyStorage ∧
    (refreshProfile nowMs st fetch).calledProfile = false := by
  unfold refreshProfile
  rcases h with h | ⟨t, ht, hexp⟩
  · rw [h]
    exact ⟨rfl, rfl, rfl⟩
  · rw [ht]
    by_cases hte : t = ""
    · subst hte
      exact ⟨rfl, rfl, rfl⟩
    · simp [tokenTruthy, hte, hexp, emptyStorage, clearStoredData]

/-- Claim C4 — witness at an absent token. -/
theorem claim_C4_witness :
    (refreshProfile 0 ⟨⟨none, some "u"⟩, some (.str "x"), some 7⟩ (.reply 200 .null)).state.user
        = none ∧
    (refreshProfile 0 ⟨⟨none, some "u"⟩, some (.str "x"), some 7⟩
        (.reply 200 .null)).state.storage = emptyStorage ∧
    (refreshProfile 0 ⟨⟨none, some "u"⟩, some (.str "x"), some 7⟩
        (.reply 200 .null)).calledProfile = false :=
  claim_C4 0 ⟨⟨none, some "u"⟩, some (.str "x"), some 7⟩ (.reply 200 .null) (Or.inl rfl)

/-- Claim C3: `makeRequest` (i) never attaches an authorization header to a
login/register request, (ii) attaches `Bearer <token>` to every other
request it actually sends when a (truthy, non-expired) token is stored,
(iii) answers any non-auth 401 reply with the same teardown as a locally
detected expired token — both storage entries removed and the
session-expired error result — and (iv) performs that teardown without
sending anything when the stored token is already expired. -/
theorem claim_C3 (nowMs : ℕ) (st : Storage) (url : String) (fetch : FetchOutcome) :
    (isAuthUrl url = true → (makeRequest nowMs url st fetch).sent = some none) ∧
    (∀ t, isAuthUrl url = false → st.token = some t → t ≠ "" →
      isTokenExpired nowMs t = false →
      (makeRequest nowMs url st fetch).sent = some (some ("Bearer " ++ t))) ∧
    (∀ body, isAuthUrl url = false → fetch = .reply 401 body →
      (makeRequest nowMs url st fetch).storage = emptyStorage ∧
      (makeRequest nowMs url st fetch).resp.success = false ∧
      (makeRequest nowMs url st fetch).resp.error = some sessionExpiredMsg) ∧
    (∀ t, isAuthUrl url = false → st.token = some t → t ≠ "" →
      isTokenExpired nowMs t = true →
      (makeRequest nowMs url st fetch).sent = none ∧
      (makeRequest nowMs url st fetch).storage = emptyStorage ∧
      (makeRequest nowMs url st fetch).resp.success = false ∧
      (makeRequest nowMs url st fetch).resp.error = some sessionExpiredMsg) := by
  refine ⟨?_, ?_, ?_, ?_⟩
  · intro h
    unfold makeRequest
    rw [h, if_neg (fun hc => hc.2.1 rfl)]
    show some (if _ then _ else none) = some none
    rw [if_neg (fun hc => hc.2 rfl)]
  · intro t h ht hte hexp
    unfold makeRequest
    rw [h, ht]
    rw [if_neg (fun hc => absurd hc.2.2 (by simp [hexp]))]
    show some (if _ then _ else none) = some (some ("Bearer " ++ t))
    rw [if_pos ⟨by simp [tokenTruthy, hte], by simp⟩]
    rfl
  · intro body h hf
    subst hf
    unfold makeRequest
    rw [h]
    by_cases hpre : tokenTruthy st.token = true ∧ ¬ false = true ∧
        isTokenExpired nowMs (st.token.getD "") = true
    · rw [if_pos hpre]
      exact ⟨rfl, rfl, rfl⟩
    · rw [if_neg hpre]
      exact ⟨rfl, rfl, rfl⟩
  · intro t h ht hte hexp
    unfold makeRequest
    rw [h, ht]
    rw [if_pos ⟨by simp [tokenTruthy, hte], by simp, by simpa using hexp⟩]
    exact ⟨rfl, rfl, rfl, rfl⟩

/-- Claim C3 — witness: a login request carries no header; a profile
request with a valid token and a 401 reply is torn down; an expired token
short-circuits the send. -/
theorem claim_C3_witness :
    (makeRequest 0 loginUrl ⟨some tokExp1, none⟩ (.reply 401 .null)).sent = some none ∧
    (makeRequest 0 profileUrl ⟨some tokExp1, none⟩ (.reply 401 .null)).storage = emptyStorage ∧
    (makeRequest 2000 profileUrl ⟨some tokExp1, none⟩ (.netError "x")).sent = none :=
  ⟨(claim_C3 0 ⟨some tokExp1, none⟩ loginUrl (.reply 401 .null)).1 (by decide),
   ((claim_C3 0 ⟨some tokExp1, none⟩ profileUrl (.reply 401 .null)).2.2.1 .null
     (by decide) rfl).1,
   ((claim_C3 2000 ⟨some tokExp1, none⟩ profileUrl (.netError "x")).2.2.2 tokExp1
     (by decide) rfl (by decide) (by decide)).1⟩

/-- Claim C2 — counterexample. The claim asserts that every failed login
whose API error text mentions user, credential, or email yields the single
generic invalid-credentials message. The masking in `login` only fires on
the exact substrings 'Invalid credentials' / 'incorrect password' /
'user not found': the API error text "email does not exist" mentions
email, yet the caller sees it verbatim, revealing the failure cause. -/
theorem claim_C2_counterexample :
    strIncludes "email does not exist" "email" = true ∧
    (login 0 emptyAuthState (.netError "email does not exist")).success = false ∧
    (login 0 emptyAuthState (.netError "email does not exist")).error =
      some "email does not exist" ∧
    "email does not exist" ≠ genericCredsMsg :=
  ⟨by decide, by decide, by decide, by decide⟩

/-- Claim C2 (amended): for every failed login whose API error text
(`response.error || 'Login failed'`) contains one of the exact substrings
'Invalid credentials', 'incorrect password' or 'user not found', the
caller-visible message is the one generic invalid-credentials string; in
particular the texts for an unknown email ('user not found') and a wrong
password ('incorrect password') are mapped to the identical message, so
the result does not reveal which occurred. -/
theorem claim_C2_amended (nowMs : ℕ) (st : AuthState) (fetch : FetchOutcome)
    (hfail : respDataTruthy (makeRequest nowMs loginUrl st.storage fetch).resp = none)
    (hmatch :
      strIncludes (errorTextOr "Login failed" (makeRequest nowMs loginUrl st.storage fetch).resp)
          "Invalid credentials" = true ∨
      strIncludes (errorTextOr "Login failed" (makeRequest nowMs loginUrl st.storage fetch).resp)
          "incorrect password" = true ∨
      strIncludes (errorTextOr "Login failed" (makeRequest nowMs loginUrl st.storage fetch).resp)
          "user not found" = true) :
    (login nowMs st fetch).success = false ∧
    (login nowMs st fetch).error = some genericCredsMsg := by
  simp only [login]
  rw [hfail]
  rcases hmatch with hm | hm | hm <;> rw [hm] <;> simp

/-- Claim C2 — witness: the two failure causes produce the identical
generic message. -/
theorem claim_C2_witness :
    ((login 0 emptyAuthState (.netError "user not found")).success = false ∧
      (login 0 emptyAuthState (.netError "user not found")).error = some genericCredsMsg) ∧
    ((login 0 emptyAuthState (.netError "incorrect password")).success = false ∧
      (login 0 emptyAuthState (.netError "incorrect password")).error = some genericCredsMsg) :=
  ⟨claim_C2_amended 0 emptyAuthState (.netError "user not found") rfl
      (Or.inr (Or.inr (by decide))),
   claim_C2_amended 0 emptyAuthState (.netError "incorrect password") rfl
      (Or.inr (Or.inl (by decide)))⟩

/-- For auth requests (login/register) `handleFetch` never touches
storage: the 401-teardown branches are all guarded by `!isAuthRequest`. -/
theorem handleFetch_auth_storage (st : Storage) (fetch : FetchOutcome) :
    (handleFetch true st fetch).2 = st := by
  cases fetch with
  | netError msg => simp [handleFetch]
  | reply status body =>
    by_cases hok : 200 ≤ status ∧ status ≤ 299
    · simp [handleFetch, hok]
    · cases hm : errMessageOf body status with
      | none => simp [handleFetch, hok, hm]
      | some m => simp [handleFetch, hok, hm]

/-- A login/register call can never change storage inside `makeRequest`:
the pre-flight teardown and all 401 teardowns are skipped for auth URLs. -/
theorem makeRequest_auth_storage (nowMs : ℕ) (url : String) (st : Storage)
    (fetch : FetchOutcome) (h : isAuthUrl url = true) :
    (makeRequest nowMs url st fetch).storage = st := by
  unfold makeRequest
  rw [h, if_neg (fun hc => hc.2.1 rfl)]
  show (handleFetch true st fetch).2 = st
  exact handleFetch_auth_storage st fetch

/-- A failed `login` leaves both storage entries and the in-memory user
exactly as they were. -/
theorem login_fail_state (nowMs : ℕ) (st : AuthState) (f : FetchOutcome)
    (h : (login nowMs st f).success = false) :
    (login nowMs st f).state.storage = st.storage ∧
    (login nowMs st f).state.user = st.user := by
  have hs := makeRequest_auth_storage nowMs loginUrl st.storage f (by decide)
  simp only [login] at h ⊢
  cases hd : respDataTruthy (makeRequest nowMs loginUrl st.storage f).resp with
  | none => simp only [hd]; exact ⟨hs, trivial⟩
  | some d =>
    cases he : extractAuthData d with
    | none => simp only [hd, he]; exact ⟨hs, trivial⟩
    | some tu =>
      obtain ⟨t, u⟩ := tu
      simp only [hd, he] at h
      simp at h

/-- A failed `register` leaves both storage entries and the in-memory user
exactly as they were. -/
theorem register_fail_state (nowMs : ℕ) (st : AuthState) (g : FetchOutcome)
    (h : (register nowMs st g).success = false) :
    (register nowMs st g).state.storage = st.storage ∧
    (register nowMs st g).state.user = st.user := by
  have hs := makeRequest_auth_storage nowMs registerUrl st.storage g (by decide)
  simp only [register] at h ⊢
  cases hd : respDataTruthy (makeRequest nowMs registerUrl st.storage g).resp with
  | none => simp only [hd]; exact ⟨hs, trivial⟩
  | some d =>
    cases he : extractAuthData d with
    | none => simp only [hd, he]; exact ⟨hs, trivial⟩
    | some tu =>
      obtain ⟨t, u⟩ := tu
      simp only [hd, he] at h
      simp at h

/-- Claim C10: a failed login or register call — 401 or any error response
from the auth endpoint — leaves the stored token and user entries and the
in-memory user unchanged; the 401-teardown path is skipped for auth
requests, so a failed re-login never tears down an existing session. -/
theorem claim_C10 (nowMs : ℕ) (st : AuthState) (f g : FetchOutcome)
    (h₁ : (login nowMs st f).success = false)
    (h₂ : (register nowMs st g).success = false) :
    (login nowMs st f).state.storage = st.storage ∧
    (login nowMs st f).state.user = st.user ∧
    (register nowMs st g).state.storage = st.storage ∧
    (register nowMs st g).state.user = st.user :=
  ⟨(login_fail_state nowMs st f h₁).1, (login_fail_state nowMs st f h₁).2,
   (register_fail_state nowMs st g h₂).1, (register_fail_state nowMs st g h₂).2⟩

/-- Claim C10 — witness: a 401 reply to login/register against a state
holding an existing session leaves it intact. -/
theorem claim_C10_witness :
    (login 0 stTick (.reply 401 .null)).state.storage = stTick.storage ∧
    (login 0 stTick (.reply 401 .null)).state.user = stTick.user ∧
    (register 0 stTick (.reply 401 .null)).state.storage = stTick.storage ∧
    (register 0 stTick (.reply 401 .null)).state.user = stTick.user :=
  claim_C10 0 stTick (.reply 401 .null) (.reply 401 .null) (by decide) (by decide)

/-- Claim C6 — counterexample. The claim asserts the periodic check runs
only while the session is Authenticated, but `initializeAuth` installs the
interval from its `finally` block on every path: starting from empty storage
the provider ends Unauthenticated with the 5-minute interval installed. -/
theorem claim_C6_counterexample :
    isAuthenticatedB (initializeAuth 0 (initialAuthState 0 emptyStorage) (.reply 200 .null))
        = false ∧
    (initializeAuth 0 (initialAuthState 0 emptyStorage) (.reply 200 .null)).intervalMs =
      some intervalPeriodMs :=
  ⟨by decide, by decide⟩

/-- Claim C6 (amended): the interval's period is the fixed 5 minutes, but
it is installed whenever the provider initializes (and on login/register),
regardless of authentication, and removed on logout/unmount; each tick
does nothing without a stored (truthy) token, forces `logout()` when the
stored token is expired, calls `refreshProfile()` when the decoded `exp`
lies less than 600 seconds ahead, and otherwise does nothing. -/
theorem claim_C6_amended (nowMs : ℕ) (st : AuthState) (lf pf : FetchOutcome) :
    ((setupTokenValidation st).intervalMs = some (5 * 60 * 1000)) ∧
    (tokenTruthy st.storage.token = false → intervalTick nowMs st lf pf = (st, .noop)) ∧
    (∀ t, st.storage.token = some t → t ≠ "" → isTokenExpired nowMs t = true →
      intervalTick nowMs st lf pf = ((logout nowMs st lf).state, .loggedOut)) ∧
    (∀ t p e, st.storage.token = some t → t ≠ "" → isTokenExpired nowMs t = false →
      tokenPayload t = some p → jsGetField p "exp" = some e →
      ((JsNum.ltb (JsNum.sub (jsToNumberProp e) (.fin (currentTimeOf nowMs))) (.fin 600)
          = true →
        intervalTick nowMs st lf pf = ((refreshProfile nowMs st pf).state, .refreshed)) ∧
       (JsNum.ltb (JsNum.sub (jsToNumberProp e) (.fin (currentTimeOf nowMs))) (.fin 600)
          = false →
        intervalTick nowMs st lf pf = (st, .noop)))) := by
  refine ⟨rfl, ?_, ?_, ?_⟩
  · intro h
    unfold intervalTick
    rw [h]
    rfl
  · intro t ht hte hexp
    unfold intervalTick
    rw [ht]
    rw [if_neg (by simp [tokenTruthy, hte]), if_pos (by simpa using hexp)]
  · intro t p e ht hte hexp hp he
    unfold intervalTick
    rw [ht]
    rw [if_neg (by simp [tokenTruthy, hte]), if_neg (by simp [hexp])]
    simp only [Option.getD_some, hp, he]
    constructor
    · intro hlt
      rw [if_pos hlt]
    · intro hlt
      rw [if_neg (by simp [hlt])]

/-- Claim C6 — witness: at `Date.now()` = 2000ms the stored token (exp 1s)
is expired, so the tick forces logout. -/
theorem claim_C6_witness :
    intervalTick 2000 stTick (.reply 200 .null) (.reply 200 .null) =
      ((logout 2000 stTick (.reply 200 .null)).state, .loggedOut) :=
  (claim_C6_amended 2000 stTick (.reply 200 .null) (.reply 200 .null)).2.2.1 tokExp1
    rfl (by decide) (by decide)

/-! ### `JSON.parse` inverts `JSON.stringify` on stored user records -/

theorem hexVal_hexDigitChar (n : ℕ) (h : n < 16) : hexVal (hexDigitChar n) = some n := by
  interval_cases n <;> rfl

theorem hexDigitChar_ne_quote (n : ℕ) (h : n < 16) :
    hexDigitChar n ≠ '"' ∧ hexDigitChar n ≠ '\\' := by
  interval_cases n <;> exact ⟨by decide, by decide⟩

/-- `unescape` undoes `JSON.stringify` escaping. -/
theorem unescape_escList (cs : List Char) : unescape (escList cs) = some cs := by
  induction cs with
  | nil => rfl
  | cons c cs ih =>
    show unescape (escChar c ++ escList cs) = some (c :: cs)
    by_cases h1 : c = '"'
    · subst h1
      rw [show escChar '"' ++ escList cs = '\\' :: '"' :: escList cs from rfl, unescape.eq_def]
      simp [simpleEsc, ih]
    by_cases h2 : c = '\\'
    · subst h2
      rw [show escChar '\\' ++ escList cs = '\\' :: '\\' :: escList cs from rfl, unescape.eq_def]
      simp [simpleEsc, ih]
    by_cases h3 : c = '\x08'
    · subst h3
      rw [show escChar '\x08' ++ escList cs = '\\' :: 'b' :: escList cs from rfl, unescape.eq_def]
      simp [simpleEsc, ih]
    by_cases h4 : c = '\t'
    · subst h4
      rw [show escChar '\t' ++ escList cs = '\\' :: 't' :: escList cs from rfl, unescape.eq_def]
      simp [simpleEsc, ih]
    by_cases h5 : c = '\n'
    · subst h5
      rw [show escChar '\n' ++ escList cs = '\\' :: 'n' :: escList cs from rfl, unescape.eq_def]
      simp [simpleEsc, ih]
    by_cases h6 : c = '\x0c'
    · subst h6
      rw [show escChar '\x0c' ++ escList cs = '\\' :: 'f' :: escList cs from rfl, unescape.eq_def]
      simp [simpleEsc, ih]
    by_cases h7 : c = '\x0d'
    · subst h7
      rw [show escChar '\x0d' ++ escList cs = '\\' :: 'r' :: escList cs from rfl, unescape.eq_def]
      simp [simpleEsc, ih]
    by_cases h8 : c.toNat < 0x20
    · have hdiv : c.toNat / 16 < 16 := by omega
      have hmod : c.toNat % 16 < 16 := by omega
      rw [show escChar c ++ escList cs =
          '\\' :: 'u' :: '0' :: '0' :: hexDigitChar (c.toNat / 16) ::
            hexDigitChar (c.toNat % 16) :: escList cs by
        simp [escChar, h1, h2, h3, h4, h5, h6, h7, h8]]
      rw [unescape.eq_def]
      simp [show hexVal '0' = some 0 from rfl, hexVal_hexDigitChar _ hdiv,
        hexVal_hexDigitChar _ hmod, ih]
      have hc : c.toNat / 16 * 16 + c.toNat % 16 = c.toNat := by omega
      refine ⟨by omega, ?_⟩
      rw [hc, Char.ofNat_toNat]
    · have hesc : escChar c = [c] := by
        simp [escChar, h1, h2, h3, h4, h5, h6, h7, h8]
      rw [hesc]
      show unescape (c :: escList cs) = some (c :: cs)
      rw [unescape.eq_def]
      simp [h2, h8, ih]

theorem splitAtQuote_other (c : Char) (xs : List Char) (h1 : ¬ c = '"') (h2 : ¬ c = '\\') :
    splitAtQuote (c :: xs) =
      match splitAtQuote xs with
      | some (a, r) => some (c :: a, r)
      | none => none := by
  rw [splitAtQuote.eq_def]
  simp [h1, h2]

theorem splitAtQuote_esc (e : Char) (xs : List Char) :
    splitAtQuote ('\\' :: e :: xs) =
      match splitAtQuote xs with
      | some (a, r) => some ('\\' :: e :: a, r)
      | none => none := by
  rw [splitAtQuote.eq_def]
  simp

/-- `splitAtQuote` recovers exactly the escaped content and the rest. -/
theorem splitAtQuote_escList (cs rest : List Char) :
    splitAtQuote (escList cs ++ '"' :: rest) = some (escList cs, rest) := by
  induction cs with
  | nil =>
    show splitAtQuote ('"' :: rest) = some ([], rest)
    rw [splitAtQuote.eq_def]
    simp
  | cons c cs ih =>
    show splitAtQuote ((escChar c ++ escList cs) ++ '"' :: rest) =
      some (escChar c ++ escList cs, rest)
    rw [List.append_assoc]
    by_cases h1 : c = '"'
    · subst h1
      rw [show escChar '"' = ['\\', '"'] from rfl]
      rw [List.cons_append, List.cons_append, List.nil_append, splitAtQuote_esc, ih]
      rfl
    by_cases h2 : c = '\\'
    · subst h2
      rw [show escChar '\\' = ['\\', '\\'] from rfl]
      rw [List.cons_append, List.cons_append, List.nil_append, splitAtQuote_esc, ih]
      rfl
    by_cases h3 : c = '\x08'
    · subst h3
      rw [show escChar '\x08' = ['\\', 'b'] from rfl]
      rw [List.cons_append, List.cons_append, List.nil_append, splitAtQuote_esc, ih]
      rfl
    by_cases h4 : c = '\t'
    · subst h4
      rw [show escChar '\t' = ['\\', 't'] from rfl]
      rw [List.cons_append, List.cons_append, List.nil_append, splitAtQuote_esc, ih]
      rfl
    by_cases h5 : c = '\n'
    · subst h5
      rw [show escChar '\n' = ['\\', 'n'] from rfl]
      rw [List.cons_append, List.cons_append, List.nil_append, splitAtQuote_esc, ih]
      rfl
    by_cases h6 : c = '\x0c'
    · subst h6
      rw [show escChar '\x0c' = ['\\', 'f'] from rfl]
      rw [List.cons_append, List.cons_append, List.nil_append, splitAtQuote_esc, ih]
      rfl
    by_cases h7 : c = '\x0d'
    · subst h7
      rw [show escChar '\x0d' = ['\\', 'r'] from rfl]
      rw [List.cons_append, List.cons_append, List.nil_append, splitAtQuote_esc, ih]
      rfl
    by_cases h8 : c.toNat < 0x20
    · have hdiv : c.toNat / 16 < 16 := by omega
      have hmod : c.toNat % 16 < 16 := by omega
      obtain ⟨hq1, hb1⟩ := hexDigitChar_ne_quote _ hdiv
      obtain ⟨hq2, hb2⟩ := hexDigitChar_ne_quote _ hmod
      rw [show escChar c = ['\\', 'u', '0', '0', hexDigitChar (c.toNat / 16),
          hexDigitChar (c.toNat % 16)] by
        simp [escChar, h1, h2, h3, h4, h5, h6, h7, h8]]
      simp only [List.cons_append, List.nil_append]
      rw [splitAtQuote_esc, splitAtQuote_other _ _ (by decide) (by decide),
        splitAtQuote_other _ _ (by decide) (by decide),
        splitAtQuote_other _ _ hq1 hb1, splitAtQuote_other _ _ hq2 hb2, ih]
    · rw [show escChar c = [c] by simp [escChar, h1, h2, h3, h4, h5, h6, h7, h8]]
      simp only [List.cons_append, List.nil_append]
      rw [splitAtQuote_other _ _ h1 h2, ih]

theorem parseJString_escList (l rest : List Char) :
    parseJString (escList l ++ '"' :: rest) = some (l, rest) := by
  simp [parseJString, splitAtQuote_escList, unescape_escList]

theorem strMk_toList (s : String) : String.mk s.toList = s := rfl

theorem parseVal_quote (g : ℕ) (s : String) (rest : List Char) :
    parseVal (g + 1) ('"' :: (escList s.toList ++ '"' :: rest)) = some (.str s, rest) := by
  show (match parseJString (escList s.toList ++ '"' :: rest) with
        | some (content, r) => some (JsValue.str (String.mk content), r)
        | none => none) = some (.str s, rest)
  rw [parseJString_escList]
  rfl

/-- One `"key":"value"` member: `parseMembers` consumes it and dispatches
on the following comma or closing brace. -/
theorem parseMembers_field (g : ℕ) (k v : String) (tail : List Char) :
    parseMembers (g + 2) ('"' :: (escList k.toList ++ '"' :: ':' :: '"' ::
        (escList v.toList ++ '"' :: tail))) =
      (match skipWs tail with
       | ',' :: r₃ =>
         (match parseMembers (g + 1) (skipWs r₃) with
          | some (JsValue.obj fs2, rr) => some (JsValue.obj ((k, JsValue.str v) :: fs2), rr)
          | _ => none)
       | '\x7d' :: r₃ => some (JsValue.obj [(k, JsValue.str v)], r₃)
       | _ => none) := by
  show (match parseJString (escList k.toList ++ '"' :: ':' :: '"' ::
          (escList v.toList ++ '"' :: tail)) with
        | some (key, r) =>
          match skipWs r with
          | ':' :: r₁ =>
            match parseVal (g + 1) r₁ with
            | some (v', r₂) =>
              match skipWs r₂ with
              | ',' :: r₃ =>
                (match parseMembers (g + 1) (skipWs r₃) with
                 | some (JsValue.obj fs2, rr) => some (JsValue.obj ((String.mk key, v') :: fs2), rr)
                 | _ => none)
              | '\x7d' :: r₃ => some (JsValue.obj [(String.mk key, v')], r₃)
              | _ => none
            | none => none
          | _ => none
        | none => none) = _
  rw [parseJString_escList]
  show (match parseVal (g + 1) ('"' :: (escList v.toList ++ '"' :: tail)) with
        | some (v', r₂) =>
          match skipWs r₂ with
          | ',' :: r₃ =>
            (match parseMembers (g + 1) (skipWs r₃) with
             | some (JsValue.obj fs2, rr) => some (JsValue.obj ((String.mk k.toList, v') :: fs2), rr)
             | _ => none)
          | '\x7d' :: r₃ => some (JsValue.obj [(String.mk k.toList, v')], r₃)
          | _ => none
        | none => none) = _
  rw [parseVal_quote]
  rfl

theorem fieldsChars_head_cons (f : String × String) (fs : List (String × String)) :
    ∃ tail, fieldsChars (f :: fs) = '"' :: tail := by
  obtain ⟨k, v⟩ := f
  cases fs with
  | nil =>
    exact ⟨escList k.toList ++ '"' :: ':' :: '"' :: (escList v.toList ++ ['"']),
      by simp [fieldsChars, fieldChars, quoteChars]⟩
  | cons f' fs' =>
    exact ⟨escList k.toList ++ '"' :: ':' :: '"' ::
        (escList v.toList ++ '"' :: ',' :: fieldsChars (f' :: fs')),
      by simp [fieldsChars, fieldChars, quoteChars]⟩

/-- `parseMembers` parses a nonempty serialized member list back to the
corresponding object fields. -/
theorem parseMembers_fieldsChars (fs : List (String × String)) :
    fs ≠ [] → ∀ (g : ℕ) (rest : List Char),
      parseMembers (g + 2 * fs.length) (fieldsChars fs ++ '\x7d' :: rest) =
        some (.obj (fs.map (fun f => (f.1, JsValue.str f.2))), rest) := by
  induction fs with
  | nil => intro h; exact absurd rfl h
  | cons f fs ih =>
    intro _ g rest
    obtain ⟨k, v⟩ := f
    cases fs with
    | nil =>
      have hshape : fieldsChars [(k, v)] ++ '\x7d' :: rest =
          '"' :: (escList k.toList ++ '"' :: ':' :: '"' ::
            (escList v.toList ++ '"' :: '\x7d' :: rest)) := by
        simp [fieldsChars, fieldChars, quoteChars]
      have hfuel : g + 2 * [(k, v)].length = g + 2 := by simp
      rw [hfuel, hshape, parseMembers_field]
      rfl
    | cons f' fs' =>
      have hshape : fieldsChars ((k, v) :: f' :: fs') ++ '\x7d' :: rest =
          '"' :: (escList k.toList ++ '"' :: ':' :: '"' ::
            (escList v.toList ++ '"' :: ',' ::
              (fieldsChars (f' :: fs') ++ '\x7d' :: rest))) := by
        simp [fieldsChars, fieldChars, quoteChars]
      have hfuel : g + 2 * ((k, v) :: f' :: fs').length =
          (g + 2 * fs'.length + 2) + 2 := by
        simp [List.length_cons]
        ring
      rw [hfuel, hshape, parseMembers_field]
      obtain ⟨tail, htail⟩ := fieldsChars_head_cons f' fs'
      have hsk : skipWs (fieldsChars (f' :: fs') ++ '\x7d' :: rest) =
          fieldsChars (f' :: fs') ++ '\x7d' :: rest := by
        rw [htail]
        rfl
      show (match parseMembers ((g + 2 * fs'.length + 2) + 1)
              (skipWs (fieldsChars (f' :: fs') ++ '\x7d' :: rest)) with
            | some (JsValue.obj fs2, rr) =>
              some (JsValue.obj ((k, JsValue.str v) :: fs2), rr)
            | _ => none) = _
      rw [hsk]
      have hfuel₂ : (g + 2 * fs'.length + 2) + 1 =
          (g + 1) + 2 * (f' :: fs').length := by
        simp [List.length_cons]
        ring
      rw [hfuel₂, ih (by simp) (g + 1) rest]
      rfl

/-- `parseVal` parses a serialized object back to the object value. -/
theorem parseVal_objChars (fs : List (String × String)) (g : ℕ) (rest : List Char) :
    parseVal (g + 2 * fs.length + 2) (objChars fs ++ rest) =
      some (.obj (fs.map (fun f => (f.1, JsValue.str f.2))), rest) := by
  cases fs with
  | nil => rfl
  | cons f fs' =>
    have hshape : objChars (f :: fs') ++ rest =
        '\x7b' :: (fieldsChars (f :: fs') ++ '\x7d' :: rest) := by
      simp [objChars]
    rw [hshape]
    obtain ⟨tail, htail⟩ := fieldsChars_head_cons f fs'
    rw [htail]
    show parseMembers (g + 2 * (f :: fs').length) (('"' :: tail) ++ '\x7d' :: rest) = _
    rw [show ('"' :: tail) ++ '\x7d' :: rest = '"' :: (tail ++ '\x7d' :: rest) from rfl,
      show ('"' : Char) :: (tail ++ '\x7d' :: rest) = ('"' :: tail) ++ '\x7d' :: rest from rfl,
      ← htail]
    exact parseMembers_fieldsChars (f :: fs') (by simp) g rest

theorem one_le_fieldChars (f : String × String) : 1 ≤ (fieldChars f).length := by
  obtain ⟨k, v⟩ := f
  simp [fieldChars, quoteChars]

theorem length_le_fieldsChars (fs : List (String × String)) :
    fs.length ≤ (fieldsChars fs).length := by
  induction fs with
  | nil => simp [fieldsChars]
  | cons f fs ih =>
    cases fs with
    | nil =>
      have := one_le_fieldChars f
      simpa [fieldsChars] using this
    | cons f' fs' =>
      have h : fieldsChars (f :: f' :: fs') = fieldChars f ++ ',' :: fieldsChars (f' :: fs') :=
        rfl
      have h1 := one_le_fieldChars f
      rw [h]
      simp only [List.length_cons, List.length_append] at ih ⊢
      omega

/-- Round trip: `JSON.parse` recovers the stored user record exactly as
the `JsValue` object with the record's present fields. -/
theorem jsonParse_stringifyUser (u : User) :
    jsonParse (stringifyUser u) = some (userToJs u) := by
  obtain ⟨g, hg⟩ : ∃ g, 2 * (objChars (userFields u)).length + 2 =
      g + 2 * (userFields u).length + 2 := by
    refine ⟨2 * (objChars (userFields u)).length - 2 * (userFields u).length, ?_⟩
    have h1 := length_le_fieldsChars (userFields u)
    have h2 : (objChars (userFields u)).length = (fieldsChars (userFields u)).length + 2 := by
      simp [objChars]
    omega
  unfold jsonParse
  rw [show (stringifyUser u).toList = objChars (userFields u) from rfl, hg,
    ← List.append_nil (objChars (userFields u)), parseVal_objChars]
  rfl

/-- Reading the five `userData` fields back from the `JsValue` object
recovers the record. -/
theorem userOfJs_userToJs (u : User) : userOfJs (userToJs u) = u := by
  obtain ⟨i, n, e, c, up⟩ := u
  cases i <;> cases n <;> cases e <;> cases c <;> cases up <;>
    simp [userOfJs, userToJs, userFields, optField, getUserField, jsGetField, jsFind]

/-- `stringifyUser` never produces the empty string. -/
theorem stringifyUser_ne_empty (u : User) : stringifyUser u ≠ "" := by
  intro h
  have : (stringifyUser u).toList = ("" : String).toList := by rw [h]
  rw [show (stringifyUser u).toList = objChars (userFields u) from rfl] at this
  simp [objChars] at this

/-- A 200 reply to an auth request surfaces as a successful response with
the reply body and untouched storage. -/
theorem makeRequest_auth_ok (nowMs : ℕ) (url : String) (st : Storage) (body : JsValue)
    (h : isAuthUrl url = true) :
    (makeRequest nowMs url st (.reply 200 body)).resp = ⟨true, some body, none⟩ ∧
    (makeRequest nowMs url st (.reply 200 body)).storage = st := by
  unfold makeRequest
  rw [h, if_neg (fun hc => hc.2.1 rfl)]
  exact ⟨rfl, rfl⟩

/-- Claim C7: a successful login whose response carries a token string and
a user record stores exactly these; the in-memory user is that record, the
stored token string is the API's token, and JSON-parsing the stored user
entry (as `getStoredUser` does) returns a user equal to the API's on all
of `_id`, `name`, `email`, `createdAt`, `updatedAt`. -/
theorem claim_C7 (nowMs : ℕ) (st : AuthState) (t : String) (u : User) :
    (login nowMs st (.reply 200 (.obj [("token", .str t), ("user", userToJs u)]))).success
        = true ∧
    (login nowMs st
        (.reply 200 (.obj [("token", .str t), ("user", userToJs u)]))).state.storage.token
        = some t ∧
    (login nowMs st
        (.reply 200 (.obj [("token", .str t), ("user", userToJs u)]))).state.user
        = some (userToJs u) ∧
    (getStoredUser (login nowMs st
        (.reply 200 (.obj [("token", .str t), ("user", userToJs u)]))).state.storage).1
        = some (userToJs u) := by
  have hr := makeRequest_auth_ok nowMs loginUrl st.storage
    (.obj [("token", .str t), ("user", userToJs u)]) (by decide)
  simp only [login]
  rw [hr.1, hr.2]
  refine ⟨rfl, rfl, ?_, ?_⟩
  · show some (userToJs (userOfJs (userToJs u))) = some (userToJs u)
    rw [userOfJs_userToJs]
  · show (getStoredUser ⟨some t, some (stringifyUser (userOfJs (userToJs u)))⟩).1 =
      some (userToJs u)
    rw [userOfJs_userToJs]
    simp [getStoredUser, stringifyUser_ne_empty u, jsonParse_stringifyUser, jsGetField, userToJs]
